import Mathlib

/-!
Verification of `dicomweb_client/session_utils.py` against its
natural-language specification.

The module is embedded shallowly:

* `Session σ` models `requests.Session`, with the fields this module
  touches (`auth`, `verify`, `cert`) plus representative untouched fields
  (`headers`, `cookies`).  The opaque type `σ` stands for arbitrary
  `requests.auth.AuthBase` strategy objects.
* `FS` models the filesystem/environment collaborator used by
  `os.path.expandvars`, `os.path.expanduser` and `os.path.exists`.
* Exceptions are values of `Err`; a function that can raise returns the
  raised error alongside the state it had mutated up to the raise, which
  is the state-passing picture of Python's in-place mutation.
* `add_certs_to_session` additionally returns the list of paths it
  existence-checked, in order, so that claims about which checks ran are
  statable.
-/

namespace SessionUtils

/-- Exception kinds this module can surface.  `osError` is the
`OSError` raised by `add_certs_to_session` (the spec's
FileNotFoundError-kind); `importError` is the `ImportError` raised by
`create_session_from_gcp_credentials` (the spec's
DependencyMissingError-kind); `credentialsError` stands for
`google.auth.exceptions.DefaultCredentialsError`, the
credentials-invalid condition that ambient discovery could propagate,
included so that distinguishability of error kinds is statable. -/
inductive Err where
  | osError (msg : String)
  | importError (msg : String)
  | credentialsError (msg : String)
deriving DecidableEq

/-- Value of `requests.Session.auth`: either a `(username, password)`
basic-auth pair or an opaque `AuthBase` strategy object of type `σ`. -/
inductive AuthVal (σ : Type) where
  | basic (username password : String)
  | strategy (s : σ)
deriving DecidableEq

/-- Value of `requests.Session.verify`: a boolean or a CA-bundle path. -/
inductive VerifyVal where
  | bool (b : Bool)
  | path (p : String)
deriving DecidableEq

/-- The slice of `requests.Session` this module reads or writes, plus
representative fields it never touches. -/
structure Session (σ : Type) where
  auth : Option (AuthVal σ)
  verify : VerifyVal
  cert : Option String
  headers : List (String × String)
  cookies : List (String × String)
deriving DecidableEq

/-- A fresh `requests.Session()`: no auth, TLS verification on, no
client certificate. -/
def newSession {σ : Type} : Session σ :=
  { auth := none, verify := VerifyVal.bool true, cert := none,
    headers := [], cookies := [] }

/-- The filesystem/environment collaborator: `env` is `os.environ`,
`pwdHome` the `pwd`-database home directory of the current user
(fallback of `os.path.expanduser` when `HOME` is unset), `userHomes`
the `pwd` lookup for `~user` forms, and `pathExists` is
`os.path.exists`. -/
structure FS where
  env : String → Option String
  pwdHome : Option String
  userHomes : String → Option String
  pathExists : String → Bool

/-- A character matched by `\w` in `posixpath.expandvars`' variable
regex (ASCII fragment). -/
def isWordChar (c : Char) : Bool :=
  c.isAlphanum || c = '_'

/-- Longest prefix of word characters and the remaining suffix. -/
def spanWord : List Char → List Char × List Char
  | [] => ([], [])
  | c :: cs =>
    if isWordChar c then ((c :: (spanWord cs).1), (spanWord cs).2)
    else ([], c :: cs)

/-- Split at the first closing brace: `breakBrace l = some (before, after)`
when `l = before ++ '}' :: after` with no brace in `before`. -/
def breakBrace : List Char → Option (List Char × List Char)
  | [] => none
  | c :: cs =>
    if c = '}' then some ([], cs)
    else
      match breakBrace cs with
      | some (b, a) => some (c :: b, a)
      | none => none

/-- Scanner of `posixpath.expandvars`: replaces `$name` / `${name}` by
`env name` when set, leaves the occurrence untouched otherwise, and
never rescans substituted text.  The fuel argument only bounds the
recursion; each step consumes at least one character, so fuel equal to
the input length (as supplied by `expandvars`) reproduces the
unbounded scan exactly. -/
def expandVarsAux (env : String → Option String) : Nat → List Char → List Char
  | 0, l => l
  | _ + 1, [] => []
  | fuel + 1, '$' :: rest =>
    match rest with
    | '{' :: rest2 =>
      match breakBrace rest2 with
      | some (name, after) =>
        match env ⟨name⟩ with
        | some v => v.data ++ expandVarsAux env fuel after
        | none => '$' :: '{' :: (name ++ '}' :: expandVarsAux env fuel after)
      | none => '$' :: '{' :: expandVarsAux env fuel rest2
    | c :: cs =>
      if isWordChar c then
        match env ⟨c :: (spanWord cs).1⟩ with
        | some v => v.data ++ expandVarsAux env fuel (spanWord cs).2
        | none => '$' :: (c :: (spanWord cs).1 ++ expandVarsAux env fuel (spanWord cs).2)
      else '$' :: expandVarsAux env fuel (c :: cs)
    | [] => ['$']
  | fuel + 1, c :: cs => c :: expandVarsAux env fuel cs

/-- `os.path.expandvars` over the environment `env`. -/
def expandvars (env : String → Option String) (path : String) : String :=
  ⟨expandVarsAux env path.data.length path.data⟩

/-- Drop trailing `/` characters (`userhome.rstrip('/')`). -/
def dropTrailingSlashes (s : List Char) : List Char :=
  (s.reverse.dropWhile (fun c => c = '/')).reverse

/-- `posixpath.expanduser` over the collaborator `fs`: a leading `~` is
replaced by `$HOME` (or the `pwd` home), `~user` by that user's home;
if the home cannot be determined the path is returned unchanged. -/
def expanduser (fs : FS) (path : String) : String :=
  match path.data with
  | '~' :: rest =>
    let user := rest.takeWhile (fun c => c ≠ '/')
    let tail := rest.dropWhile (fun c => c ≠ '/')
    let userhome : Option String :=
      if user.isEmpty then
        match fs.env "HOME" with
        | some h => some h
        | none => fs.pwdHome
      else fs.userHomes ⟨user⟩
    match userhome with
    | none => path
    | some h =>
      let res := dropTrailingSlashes h.data ++ tail
      if res.isEmpty then "/" else ⟨res⟩
  | _ => path

/-- The path resolution performed by `add_certs_to_session`:
`os.path.expanduser(os.path.expandvars(p))`. -/
def expandPath (fs : FS) (p : String) : String :=
  expanduser fs (expandvars fs.env p)

/-- `create_session_from_auth`: a fresh session whose `auth` is the
given object, stored uninterpreted (`none` models passing `None`). -/
def create_session_from_auth {σ : Type} (auth : Option (AuthVal σ)) : Session σ :=
  let session : Session σ := newSession
  { session with auth := auth }

/-- `create_session_from_user_pass`: a fresh session whose `auth` is
the `(username, password)` pair. -/
def create_session_from_user_pass {σ : Type} (username password : String) : Session σ :=
  let session : Session σ := newSession
  { session with auth := some (AuthVal.basic username password) }

/-- Outcome of `add_certs_to_session`: the session as mutated so far,
the list of paths passed to `os.path.exists` in order, and the raised
exception, if any. -/
structure AddCertsResult (σ : Type) where
  session : Session σ
  checked : List String
  raised : Option Err
deriving DecidableEq

/-- The second `if cert is not None` block of `add_certs_to_session`,
entered with the session and check-trace produced by the CA-bundle
block. -/
def certPhase {σ : Type} (fs : FS) (s : Session σ) (tr : List String)
    (cert : Option String) : AddCertsResult σ :=
  match cert with
  | none => ⟨s, tr, none⟩
  | some c =>
    let c' := expandPath fs c
    if fs.pathExists c' then
      ⟨{ s with cert := some c' }, tr ++ [c'], none⟩
    else
      ⟨s, tr ++ [c'], some (Err.osError ("Certificate file does not exist: " ++ c'))⟩

/-- `add_certs_to_session`: expand, existence-check and assign the CA
bundle into `verify`, then (only if that did not raise) expand,
existence-check and assign the certificate into `cert`. -/
def add_certs_to_session {σ : Type} (fs : FS) (session : Session σ)
    (ca_bundle cert : Option String) : AddCertsResult σ :=
  match ca_bundle with
  | none => certPhase fs session [] cert
  | some cb =>
    let cb' := expandPath fs cb
    if fs.pathExists cb' then
      certPhase fs { session with verify := VerifyVal.path cb' } [cb'] cert
    else
      ⟨session, [cb'], some (Err.osError ("CA bundle file does not exist: " ++ cb'))⟩

/-- The Google-cloud collaborator: `available` models importability of
the optional `google-auth` dependency (both `google.auth` and
`google.auth.transport.requests` ship with the "gcp" extra);
`googleDefault` models `google.auth.default(scopes=...)`, returning
`(credentials, project_id)`. -/
structure GcpEnv (γ : Type) where
  available : Bool
  googleDefault : List String → γ × Option String

/-- `google.auth.transport.requests.AuthorizedSession(credentials)`. -/
structure AuthorizedSession (γ : Type) where
  credentials : γ
deriving DecidableEq

/-- Normal return or raised exception. -/
inductive Outcome (α : Type) where
  | ok (value : α)
  | error (e : Err)
deriving DecidableEq

/-- Outcome of `create_session_from_gcp_credentials`: the returned
session or raised error, and the scopes passed to ambient credential
discovery (`none` when discovery was never invoked). -/
structure GcpSessionResult (γ : Type) where
  result : Outcome (AuthorizedSession γ)
  discoveryScopes : Option (List String)
deriving DecidableEq

/-- The scope list passed to `google.auth.default`. -/
def cloudPlatformScopes : List String :=
  ["https://www.googleapis.com/auth/cloud-platform"]

/-- The message of the `ImportError` raised when the "gcp" extra is not
installed. -/
def gcpExtraMessage : String :=
  "The dicomweb-client package needs to be installed with the \"gcp\" extra requirements to support interaction with the Google Cloud Healthcare API: pip install dicomweb-client[gcp]"

/-- `create_session_from_gcp_credentials`: if the optional dependency
is unavailable the import at the top of the `try` block raises and is
mapped to the packaging `ImportError`; otherwise supplied credentials
are wrapped directly, and absent credentials are discovered via
`google.auth.default` under `cloudPlatformScopes`. -/
def create_session_from_gcp_credentials {γ : Type} (env : GcpEnv γ)
    (google_credentials : Option γ) : GcpSessionResult γ :=
  if env.available then
    match google_credentials with
    | some c => ⟨Outcome.ok ⟨c⟩, none⟩
    | none =>
      let d := env.googleDefault cloudPlatformScopes
      ⟨Outcome.ok ⟨d.1⟩, some cloudPlatformScopes⟩
  else
    ⟨Outcome.error (Err.importError gcpExtraMessage), none⟩

/-! Spec-side comparison definitions and concrete fixtures. -/

/-- Predicate from the claims' wording: a POSIX-absolute path. -/
def isAbsolutePath (p : String) : Bool :=
  match p.data with
  | '/' :: _ => true
  | _ => false

/-- Stated from the spec's words, for comparison with the source: the
"expanded absolute form" of a path, i.e. the expanded path made
absolute against a working directory `cwd` in the way
`os.path.abspath` would.  The source never computes any such value. -/
def specExpandedAbsoluteForm (fs : FS) (cwd : String) (p : String) : String :=
  let e := expandPath fs p
  if isAbsolutePath e then e else cwd ++ "/" ++ e

/-- Environment with `HOME=/home/u` in which only the expanded
CA-bundle path exists. -/
def fsHome : FS :=
  { env := fun k => if k = "HOME" then some "/home/u" else none,
    pwdHome := none, userHomes := fun _ => none,
    pathExists := fun p => p = "/home/u/certs/ca.pem" }

/-- Environment with `CERTDIR=/etc/certs` in which only the expanded
certificate path exists. -/
def fsCertDir : FS :=
  { env := fun k => if k = "CERTDIR" then some "/etc/certs" else none,
    pwdHome := none, userHomes := fun _ => none,
    pathExists := fun p => p = "/etc/certs/ca.pem" }

/-- Environment in which no path exists. -/
def fsNone : FS :=
  { env := fun _ => none, pwdHome := none, userHomes := fun _ => none,
    pathExists := fun _ => false }

/-- Environment in which exactly the two relative paths
`rel-ca.pem` and `rel-cert.pem` exist. -/
def fsRel : FS :=
  { env := fun _ => none, pwdHome := none, userHomes := fun _ => none,
    pathExists := fun p => p = "rel-ca.pem" || p = "rel-cert.pem" }

/-- A concrete fresh session. -/
def s0 : Session Unit := newSession

/-- Google-cloud collaborator with the optional dependency missing. -/
def gcpEnvMissing : GcpEnv Nat :=
  { available := false, googleDefault := fun _ => (0, none) }

/-- Google-cloud collaborator with the optional dependency installed;
ambient discovery yields credentials `42` and a project id. -/
def gcpEnvAvail : GcpEnv Nat :=
  { available := true, googleDefault := fun _ => (42, some "proj") }

end SessionUtils

namespace SessionUtils

/-! Helper lemmas. -/

/-- A string's characters are an infix of any append extending it on
the left. -/
theorem data_infix_append_left (pre x : String) : x.data <:+: (pre ++ x).data :=
  ⟨pre.data, [], by simp [String.data_append]⟩

/-- The suffix left by `spanWord` is no longer than the input. -/
theorem spanWord_snd_length (l : List Char) : (spanWord l).2.length ≤ l.length := by
  induction l with
  | nil => simp [spanWord]
  | cons c cs ih =>
    cases h : isWordChar c <;> simp [spanWord, h]
    exact Nat.le_succ_of_le ih

/-- The part after the brace found by `breakBrace` is strictly shorter
than the input. -/
theorem breakBrace_some_length :
    ∀ {l b a : List Char}, breakBrace l = some (b, a) → a.length < l.length := by
  intro l
  induction l with
  | nil => intro b a h; simp [breakBrace] at h
  | cons c cs ih =>
    intro b a h
    by_cases hc : c = '}'
    · simp [breakBrace, hc] at h
      obtain ⟨-, h2⟩ := h
      subst h2
      exact Nat.lt_succ_self _
    · cases hbc : breakBrace cs with
      | none => simp [breakBrace, hc, hbc] at h
      | some p =>
        obtain ⟨b', a'⟩ := p
        simp [breakBrace, hc, hbc] at h
        obtain ⟨-, h2⟩ := h
        subst h2
        exact Nat.lt_succ_of_lt (ih hbc)

/-- Unfolding of the scanner at a head character other than `$`. -/
theorem expandVarsAux_cons_ne (env : String → Option String) (f : Nat)
    (c : Char) (cs : List Char) (hc : c ≠ '$') :
    expandVarsAux env (f + 1) (c :: cs) = c :: expandVarsAux env f cs := by
  rw [expandVarsAux.eq_def]
  split <;> simp_all

/-- The scanner's fuel is irrelevant once it is at least the input
length: every step consumes at least one character, so the
out-of-fuel branch is never taken.  This certifies that `expandvars`,
which supplies fuel equal to the input length, computes the unbounded
scan of `posixpath.expandvars`. -/
theorem expandVarsAux_fuel (env : String → Option String) :
    ∀ n f1 f2 l, l.length ≤ n → l.length ≤ f1 → l.length ≤ f2 →
      expandVarsAux env f1 l = expandVarsAux env f2 l := by
  intro n
  induction n with
  | zero =>
    intro f1 f2 l hn _ _
    have hl : l = [] := List.eq_nil_of_length_eq_zero (Nat.le_zero.mp hn)
    subst hl
    cases f1 <;> cases f2 <;> rfl
  | succ n ih =>
    intro f1 f2 l hn h1 h2
    cases l with
    | nil => cases f1 <;> cases f2 <;> rfl
    | cons c cs =>
      cases f1 with
      | zero => simp at h1
      | succ f1 =>
        cases f2 with
        | zero => simp at h2
        | succ f2 =>
          simp only [List.length_cons, Nat.succ_le_succ_iff] at hn h1 h2
          by_cases hc : c = '$'
          · subst hc
            cases cs with
            | nil => rfl
            | cons d ds =>
              simp only [List.length_cons] at hn h1 h2
              by_cases hd : d = '{'
              · subst hd
                cases hbb : breakBrace ds with
                | none =>
                  simp only [expandVarsAux, hbb]
                  rw [ih f1 f2 ds (by omega) (by omega) (by omega)]
                | some p =>
                  obtain ⟨name, after⟩ := p
                  have hlen := breakBrace_some_length hbb
                  simp only [expandVarsAux, hbb]
                  cases env ⟨name⟩ with
                  | none => rw [ih f1 f2 after (by omega) (by omega) (by omega)]
                  | some v => rw [ih f1 f2 after (by omega) (by omega) (by omega)]
              · by_cases hw : isWordChar d
                · have hlen := spanWord_snd_length ds
                  simp only [expandVarsAux, hd, hw, if_true]
                  cases env ⟨d :: (spanWord ds).1⟩ with
                  | none =>
                    rw [ih f1 f2 (spanWord ds).2 (by omega) (by omega) (by omega)]
                  | some v =>
                    rw [ih f1 f2 (spanWord ds).2 (by omega) (by omega) (by omega)]
                · have hw' : isWordChar d = false := by simpa using hw
                  simp only [expandVarsAux, hd, hw', Bool.false_eq_true, if_false]
                  rw [ih f1 f2 (d :: ds) (by simp; omega) (by simp; omega) (by simp; omega)]
          · rw [expandVarsAux_cons_ne env f1 c cs hc, expandVarsAux_cons_ne env f2 c cs hc]
            rw [ih f1 f2 cs (by omega) (by omega) (by omega)]

/-- `expandvars` equals the scanner run with any sufficient fuel. -/
theorem expandvars_fuel_sufficient (env : String → Option String)
    (p : String) (f : Nat) (hf : p.data.length ≤ f) :
    expandvars env p = ⟨expandVarsAux env f p.data⟩ := by
  unfold expandvars
  rw [expandVarsAux_fuel env p.data.length p.data.length f p.data
    (Nat.le_refl _) (Nat.le_refl _) hf]

/-- If the certificate block raised, the certificate argument was a
path whose expanded form does not exist, and the message is the
certificate error text ending in that expanded form. -/
theorem certPhase_raised {σ : Type} (fs : FS) (s : Session σ) (tr : List String)
    (cert : Option String) (m : String)
    (h : (certPhase fs s tr cert).raised = some (Err.osError m)) :
    ∃ c, cert = some c ∧ fs.pathExists (expandPath fs c) = false
      ∧ m = "Certificate file does not exist: " ++ expandPath fs c := by
  cases cert with
  | none => simp [certPhase] at h
  | some c =>
    cases hc : fs.pathExists (expandPath fs c) <;> simp [certPhase, hc] at h
    exact ⟨c, rfl, hc, h.symm⟩

/-! Claim theorems. -/

/-- C1: if the CA-bundle path's expanded form does not exist,
`add_certs_to_session` raises the OSError before the certificate
argument is examined in any way: the outcome is identical for any two
certificate arguments, only the CA-bundle path was existence-checked,
and the session — in particular its `cert` field — is returned
unmodified. -/
theorem C1_ca_failure_fail_fast {σ : Type} (fs : FS) (s : Session σ)
    (cb : String) (cert1 cert2 : Option String)
    (h : fs.pathExists (expandPath fs cb) = false) :
    add_certs_to_session fs s (some cb) cert1 = add_certs_to_session fs s (some cb) cert2
    ∧ add_certs_to_session fs s (some cb) cert1 =
        ⟨s, [expandPath fs cb],
         some (Err.osError ("CA bundle file does not exist: " ++ expandPath fs cb))⟩ := by
  simp [add_certs_to_session, h]

/-- C1 witness: the fail-fast behaviour at a concrete missing
CA-bundle path. -/
theorem C1_witness :
    fsNone.pathExists (expandPath fsNone "missing-ca.pem") = false
    ∧ (add_certs_to_session fsNone s0 (some "missing-ca.pem") (some "client.pem") =
         add_certs_to_session fsNone s0 (some "missing-ca.pem") none
       ∧ add_certs_to_session fsNone s0 (some "missing-ca.pem") (some "client.pem") =
           ⟨s0, [expandPath fsNone "missing-ca.pem"],
            some (Err.osError
              ("CA bundle file does not exist: " ++ expandPath fsNone "missing-ca.pem"))⟩) :=
  ⟨by decide,
   C1_ca_failure_fail_fast fsNone s0 "missing-ca.pem" (some "client.pem") none (by decide)⟩

/-- C2 counterexample: for the relative input `missing-ca.pem` the
raised message contains the resolved path, which is not absolute; the
resolved absolute form `/workdir/missing-ca.pem` appears nowhere in
the message. -/
theorem C2_counterexample :
    (add_certs_to_session fsNone s0 (some "missing-ca.pem") none).raised =
      some (Err.osError "CA bundle file does not exist: missing-ca.pem")
    ∧ expandPath fsNone "missing-ca.pem" = "missing-ca.pem"
    ∧ isAbsolutePath "missing-ca.pem" = false
    ∧ specExpandedAbsoluteForm fsNone "/workdir" "missing-ca.pem" = "/workdir/missing-ca.pem"
    ∧ ¬ (("/workdir/missing-ca.pem").data <:+:
          ("CA bundle file does not exist: missing-ca.pem").data) := by
  decide

/-- C2 (amended): whenever `add_certs_to_session` raises, the raised
OSError's message includes the resolved (expanded) form of the
offending missing path — which need not be absolute. -/
theorem C2_error_message_includes_resolved_path {σ : Type} (fs : FS) (s : Session σ)
    (ca cert : Option String) (m : String)
    (h : (add_certs_to_session fs s ca cert).raised = some (Err.osError m)) :
    ∃ p, (ca = some p ∨ cert = some p)
      ∧ fs.pathExists (expandPath fs p) = false
      ∧ (expandPath fs p).data <:+: m.data := by
  cases ca with
  | none =>
    simp only [add_certs_to_session] at h
    obtain ⟨c, hc, hne, hm⟩ := certPhase_raised fs s [] cert m h
    exact ⟨c, Or.inr hc, hne, hm ▸ data_infix_append_left _ _⟩
  | some cb =>
    cases hcb : fs.pathExists (expandPath fs cb)
    · simp [add_certs_to_session, hcb] at h
      exact ⟨cb, Or.inl rfl, hcb, h.symm ▸ data_infix_append_left _ _⟩
    · simp only [add_certs_to_session, hcb, if_true] at h
      obtain ⟨c, hc, hne, hm⟩ := certPhase_raised fs _ _ cert m h
      exact ⟨c, Or.inr hc, hne, hm ▸ data_infix_append_left _ _⟩

/-- C2 witness: the amended message property at a concrete missing
CA-bundle path. -/
theorem C2_witness :
    (add_certs_to_session fsNone s0 (some "missing-ca.pem") none).raised =
        some (Err.osError "CA bundle file does not exist: missing-ca.pem")
    ∧ ∃ p, ((some "missing-ca.pem" : Option String) = some p
            ∨ (none : Option String) = some p)
        ∧ fsNone.pathExists (expandPath fsNone p) = false
        ∧ (expandPath fsNone p).data <:+:
            ("CA bundle file does not exist: missing-ca.pem").data :=
  ⟨by decide,
   C2_error_message_includes_resolved_path fsNone s0 (some "missing-ca.pem") none
     "CA bundle file does not exist: missing-ca.pem" (by decide)⟩

end SessionUtils

namespace SessionUtils

/-- C3 counterexample: both expanded forms exist, yet the assigned
`verify` value is the relative expanded form `rel-ca.pem`, not the
expanded absolute form `/workdir/rel-ca.pem`. -/
theorem C3_counterexample :
    fsRel.pathExists (expandPath fsRel "rel-ca.pem") = true
    ∧ fsRel.pathExists (expandPath fsRel "rel-cert.pem") = true
    ∧ (add_certs_to_session fsRel s0 (some "rel-ca.pem") (some "rel-cert.pem")).session.verify =
        VerifyVal.path "rel-ca.pem"
    ∧ isAbsolutePath "rel-ca.pem" = false
    ∧ specExpandedAbsoluteForm fsRel "/workdir" "rel-ca.pem" = "/workdir/rel-ca.pem"
    ∧ (add_certs_to_session fsRel s0 (some "rel-ca.pem") (some "rel-cert.pem")).session.verify ≠
        VerifyVal.path (specExpandedAbsoluteForm fsRel "/workdir" "rel-ca.pem") := by
  decide

/-- C3 (amended): when both expanded forms exist,
`add_certs_to_session` sets `verify` to the expanded form of the
CA-bundle path and `cert` to the expanded form of the certificate path
(absolute only when expansion yields an absolute path), checks exactly
those two paths, raises nothing, and leaves every other field of the
session unchanged. -/
theorem C3_success_assigns_expanded_paths {σ : Type} (fs : FS) (s : Session σ)
    (cb c : String)
    (h1 : fs.pathExists (expandPath fs cb) = true)
    (h2 : fs.pathExists (expandPath fs c) = true) :
    add_certs_to_session fs s (some cb) (some c) =
      ⟨{ s with verify := VerifyVal.path (expandPath fs cb),
                cert := some (expandPath fs c) },
       [expandPath fs cb, expandPath fs c], none⟩
    ∧ (add_certs_to_session fs s (some cb) (some c)).session.auth = s.auth
    ∧ (add_certs_to_session fs s (some cb) (some c)).session.headers = s.headers
    ∧ (add_certs_to_session fs s (some cb) (some c)).session.cookies = s.cookies := by
  simp [add_certs_to_session, certPhase, h1, h2]

/-- C3 witness: the amended success behaviour at two concrete existing
relative paths. -/
theorem C3_witness :
    fsRel.pathExists (expandPath fsRel "rel-ca.pem") = true
    ∧ fsRel.pathExists (expandPath fsRel "rel-cert.pem") = true
    ∧ (add_certs_to_session fsRel s0 (some "rel-ca.pem") (some "rel-cert.pem") =
        ⟨{ s0 with verify := VerifyVal.path (expandPath fsRel "rel-ca.pem"),
                   cert := some (expandPath fsRel "rel-cert.pem") },
         [expandPath fsRel "rel-ca.pem", expandPath fsRel "rel-cert.pem"], none⟩
      ∧ (add_certs_to_session fsRel s0 (some "rel-ca.pem") (some "rel-cert.pem")).session.auth =
          s0.auth
      ∧ (add_certs_to_session fsRel s0 (some "rel-ca.pem") (some "rel-cert.pem")).session.headers =
          s0.headers
      ∧ (add_certs_to_session fsRel s0 (some "rel-ca.pem") (some "rel-cert.pem")).session.cookies =
          s0.cookies) :=
  ⟨by decide, by decide,
   C3_success_assigns_expanded_paths fsRel s0 "rel-ca.pem" "rel-cert.pem"
     (by decide) (by decide)⟩

/-- C4: the function is in-place mutation in state-passing form — the
returned session is the input session with only the requested fields
updated; with both arguments absent no path is existence-checked,
nothing is raised and the session comes back exactly unchanged; an
absent certificate argument leaves `cert` untouched and an absent
CA-bundle argument leaves `verify` untouched. -/
theorem C4_frame_and_identity {σ : Type} (fs : FS) (s : Session σ) :
    add_certs_to_session fs s none none = ⟨s, [], none⟩
    ∧ (∀ cb, (add_certs_to_session fs s (some cb) none).session.cert = s.cert)
    ∧ (∀ c, (add_certs_to_session fs s none (some c)).session.verify = s.verify) := by
  refine ⟨rfl, fun cb => ?_, fun c => ?_⟩
  · cases hcb : fs.pathExists (expandPath fs cb) <;>
      simp [add_certs_to_session, certPhase, hcb]
  · cases hc : fs.pathExists (expandPath fs c) <;>
      simp [add_certs_to_session, certPhase, hc]

/-- C5: path resolution expands user-home references
(`~/certs/ca.pem` with `HOME=/home/u` becomes `/home/u/certs/ca.pem`)
and environment-variable references (`$CERTDIR/ca.pem` with
`CERTDIR=/etc/certs` becomes `/etc/certs/ca.pem`), and it is the
resolved path that is existence-checked and assigned into the
session. -/
theorem C5_path_expansion :
    expandPath fsHome "~/certs/ca.pem" = "/home/u/certs/ca.pem"
    ∧ expandPath fsCertDir "$CERTDIR/ca.pem" = "/etc/certs/ca.pem"
    ∧ add_certs_to_session fsHome s0 (some "~/certs/ca.pem") none =
        ⟨{ s0 with verify := VerifyVal.path "/home/u/certs/ca.pem" },
         ["/home/u/certs/ca.pem"], none⟩
    ∧ add_certs_to_session fsCertDir s0 none (some "$CERTDIR/ca.pem") =
        ⟨{ s0 with cert := some "/etc/certs/ca.pem" },
         ["/etc/certs/ca.pem"], none⟩ := by
  decide

end SessionUtils

namespace SessionUtils

/-- C6: for every username and password,
`create_session_from_user_pass` returns a freshly constructed session
whose auth mechanism is exactly the `(username, password)` basic-auth
pair; the function is total (no validation, no error) and touches no
other field of the fresh session. -/
theorem C6_user_pass_auth (σ : Type) (u p : String) :
    (create_session_from_user_pass u p : Session σ) =
      { (newSession : Session σ) with auth := some (AuthVal.basic u p) }
    ∧ (create_session_from_user_pass u p : Session σ).auth =
        some (AuthVal.basic u p) :=
  ⟨rfl, rfl⟩

/-- C7: for every auth-strategy value, including the absent one,
`create_session_from_auth` returns a freshly constructed session whose
auth mechanism is exactly that value, stored uninterpreted; the
function is total (it never raises), and the absent strategy yields an
unauthenticated session. -/
theorem C7_auth_strategy_stored (σ : Type) (s : Option (AuthVal σ)) :
    create_session_from_auth s = { (newSession : Session σ) with auth := s }
    ∧ (create_session_from_auth s).auth = s
    ∧ (create_session_from_auth (none : Option (AuthVal σ))).auth = none :=
  ⟨rfl, rfl, rfl⟩

/-- C8: when the optional cloud-auth dependency is unavailable,
`create_session_from_gcp_credentials` raises the packaging
ImportError (the spec's DependencyMissingError-kind) — a constructor
distinct from the OSError kind and from the credentials-invalid kind,
hence distinguishable by the caller — whose message names the missing
"gcp" extra; ambient discovery is never invoked. -/
theorem C8_missing_dependency {γ : Type} (env : GcpEnv γ) (creds : Option γ)
    (a b : String) (h : env.available = false) :
    (create_session_from_gcp_credentials env creds).result =
        Outcome.error (Err.importError gcpExtraMessage)
    ∧ (create_session_from_gcp_credentials env creds).discoveryScopes = none
    ∧ ("gcp").data <:+: gcpExtraMessage.data
    ∧ Err.importError a ≠ Err.osError b
    ∧ Err.importError a ≠ Err.credentialsError b := by
  refine ⟨?_, ?_, by decide, by simp, by simp⟩
  · simp [create_session_from_gcp_credentials, h]
  · simp [create_session_from_gcp_credentials, h]

/-- C8 witness: the missing-dependency behaviour at a concrete
collaborator with the optional dependency unavailable. -/
theorem C8_witness :
    gcpEnvMissing.available = false
    ∧ ((create_session_from_gcp_credentials gcpEnvMissing none).result =
          Outcome.error (Err.importError gcpExtraMessage)
       ∧ (create_session_from_gcp_credentials gcpEnvMissing none).discoveryScopes = none
       ∧ ("gcp").data <:+: gcpExtraMessage.data
       ∧ Err.importError "x" ≠ Err.osError "y"
       ∧ Err.importError "x" ≠ Err.credentialsError "y") :=
  ⟨rfl, C8_missing_dependency gcpEnvMissing none "x" "y" rfl⟩

/-- C9: with the cloud-auth dependency available, supplied credentials
are wrapped exactly, with ambient discovery never invoked; absent
credentials are discovered via `google.auth.default` under exactly the
cloud-platform scope string and the discovered credentials are
wrapped. -/
theorem C9_gcp_credentials {γ : Type} (env : GcpEnv γ) (C : γ)
    (h : env.available = true) :
    create_session_from_gcp_credentials env (some C) = ⟨Outcome.ok ⟨C⟩, none⟩
    ∧ create_session_from_gcp_credentials env none =
        ⟨Outcome.ok ⟨(env.googleDefault cloudPlatformScopes).1⟩, some cloudPlatformScopes⟩
    ∧ cloudPlatformScopes = ["https://www.googleapis.com/auth/cloud-platform"] := by
  refine ⟨?_, ?_, rfl⟩ <;> simp [create_session_from_gcp_credentials, h]

/-- C9 witness: the available-dependency behaviour at a concrete
collaborator whose ambient discovery yields credentials 42. -/
theorem C9_witness :
    gcpEnvAvail.available = true
    ∧ (create_session_from_gcp_credentials gcpEnvAvail (some 7) =
          ⟨Outcome.ok ⟨7⟩, none⟩
       ∧ create_session_from_gcp_credentials gcpEnvAvail none =
          ⟨Outcome.ok ⟨(gcpEnvAvail.googleDefault cloudPlatformScopes).1⟩,
           some cloudPlatformScopes⟩
       ∧ cloudPlatformScopes = ["https://www.googleapis.com/auth/cloud-platform"]) :=
  ⟨rfl, C9_gcp_credentials gcpEnvAvail 7 rfl⟩

/-- C10: the error path is not atomic — when the CA bundle's expanded
form exists but the certificate's does not, the OSError is raised only
after `verify` has been assigned the expanded CA-bundle path, so the
session is observably mutated despite the error; `cert` stays
unchanged. -/
theorem C10_partial_mutation_on_error {σ : Type} (fs : FS) (s : Session σ)
    (cb c : String)
    (h1 : fs.pathExists (expandPath fs cb) = true)
    (h2 : fs.pathExists (expandPath fs c) = false) :
    add_certs_to_session fs s (some cb) (some c) =
      ⟨{ s with verify := VerifyVal.path (expandPath fs cb) },
       [expandPath fs cb, expandPath fs c],
       some (Err.osError ("Certificate file does not exist: " ++ expandPath fs c))⟩
    ∧ (add_certs_to_session fs s (some cb) (some c)).session.verify =
        VerifyVal.path (expandPath fs cb)
    ∧ (add_certs_to_session fs s (some cb) (some c)).session.cert = s.cert := by
  simp [add_certs_to_session, certPhase, h1, h2]

/-- C10 witness: the partial mutation at a concrete existing CA bundle
and missing certificate. -/
theorem C10_witness :
    fsRel.pathExists (expandPath fsRel "rel-ca.pem") = true
    ∧ fsRel.pathExists (expandPath fsRel "no-cert.pem") = false
    ∧ (add_certs_to_session fsRel s0 (some "rel-ca.pem") (some "no-cert.pem") =
        ⟨{ s0 with verify := VerifyVal.path (expandPath fsRel "rel-ca.pem") },
         [expandPath fsRel "rel-ca.pem", expandPath fsRel "no-cert.pem"],
         some (Err.osError
           ("Certificate file does not exist: " ++ expandPath fsRel "no-cert.pem"))⟩
      ∧ (add_certs_to_session fsRel s0 (some "rel-ca.pem") (some "no-cert.pem")).session.verify =
          VerifyVal.path (expandPath fsRel "rel-ca.pem")
      ∧ (add_certs_to_session fsRel s0 (some "rel-ca.pem") (some "no-cert.pem")).session.cert =
          s0.cert) :=
  ⟨by decide, by decide,
   C10_partial_mutation_on_error fsRel s0 "rel-ca.pem" "no-cert.pem"
     (by decide) (by decide)⟩

end SessionUtils
